import Mathlib

/-!
Formal model of the Iridium GPU presentation subsystem.

The definitions below are a shallow embedding of the code in
`src/Source/Vulkan/Vulkan.cpp`, `src/Source/Wayland/Wayland.cpp` and
`src/Source/Window.cpp`: device selection, queue-family selection,
swapchain image-count computation, swapchain teardown, the per-tick
frame protocol of `Frame`, and the resize handshake of the Wayland
layer.  Machine integers (`uint32_t`) are modelled as `Nat`; the one
place where wraparound could matter (`minImageCount + 1`) carries an
explicit `% 2 ^ 32`.  Vulkan calls that merely produce driver-side
effects are modelled as emitted events; driver results (acquire and
present outcomes, GPU fence completion) are inputs of the model.
-/

set_option autoImplicit false

namespace Iridium

/-! ### Swapchain image count (`StartSwapchain`, Vulkan.cpp lines 358-361) -/

/-- Image-count computation of `StartSwapchain`:
`image_count = min + 1 < max ? min + 1 : min`, on `uint32_t` values.
The successor is taken modulo `2 ^ 32` exactly as the C `+ 1` does. -/
def imageCountOf (minImageCount maxImageCount : Nat) : Nat :=
  if (minImageCount + 1) % 2 ^ 32 < maxImageCount
  then (minImageCount + 1) % 2 ^ 32
  else minImageCount

/-- The computation the specification describes instead:
`clamp(minImageCount + 1, ..., maxImageCount)`, that is `min + 1`
when it does not exceed `max`, and `max` otherwise. -/
def imageCountClamped (minImageCount maxImageCount : Nat) : Nat :=
  min (minImageCount + 1) maxImageCount

/-! ### Device scoring and selection (`Connect`, Vulkan.cpp lines 190-227;
`RateGPU`, lines 53-69) -/

/-- The Vulkan physical-device classes that `Connect` switches on.
`unknownType` stands for any `VkPhysicalDeviceType` value outside the
five named cases, which the `default:` branch of the switch skips. -/
inductive DeviceType
  | otherDevice
  | integratedGpu
  | discreteGpu
  | virtualGpu
  | cpuDevice
  | unknownType
deriving DecidableEq, Repr

/-- Score assigned by the switch in the selection loop of `Connect`
(lines 208-220); `none` models the `default: continue` branch. -/
def deviceScore : DeviceType → Option Nat
  | .otherDevice => some 1
  | .integratedGpu => some 4
  | .discreteGpu => some 5
  | .virtualGpu => some 3
  | .cpuDevice => some 2
  | .unknownType => none

/-- Score with the skipped class mapped to 0, used only in statements. -/
def scoreN (t : DeviceType) : Nat := (deviceScore t).getD 0

/-- A candidate physical device as far as the code inspects one:
its device class and its `geometryShader` feature bit. -/
structure PhysicalDeviceInfo where
  deviceType : DeviceType
  geometryShader : Bool
deriving DecidableEq, Repr

/-- The `RateGPU` function (lines 53-69): score 0 when the device lacks
geometry-shader support, otherwise the initial score 1. -/
def RateGPU (d : PhysicalDeviceInfo) : Nat :=
  if d.geometryShader then 1 else 0

/-- The selection loop of `Connect` (lines 197-227): running best index
and best score, updated only on a strictly larger score; devices whose
class hits the `default:` branch are skipped. -/
def selectLoop : List DeviceType → Nat → Option Nat → Nat → Option Nat × Nat
  | [], _, best, bestScore => (best, bestScore)
  | t :: rest, i, best, bestScore =>
    match deviceScore t with
    | none => selectLoop rest (i + 1) best bestScore
    | some score =>
      if bestScore < score
      then selectLoop rest (i + 1) (some i) score
      else selectLoop rest (i + 1) best bestScore

/-- Device selection as `Connect` performs it: `gpu_device` starts null
(`none`) and `bestScore` starts 0. Returns the index of the chosen
device, if any. -/
def selectDevice (devices : List DeviceType) : Option Nat :=
  (selectLoop devices 0 none 0).1

/-- The selection `Connect` runs on full candidate records: the loop
reads only `properties.deviceType`; the feature bits (and `RateGPU`)
are never consulted. -/
def connectSelect (devices : List PhysicalDeviceInfo) : Option Nat :=
  selectDevice (devices.map PhysicalDeviceInfo.deviceType)

/-- Maximum device score occurring in a candidate list, with 0 for the
empty list; mirrors what the running `bestScore` converges to. -/
def maxScore (l : List DeviceType) : Nat :=
  l.foldr (fun t m => Nat.max (scoreN t) m) 0

/-! ### Queue-family selection (`Connect`, Vulkan.cpp lines 238-251) -/

/-- What `Connect` learns about one queue family: the
`VK_QUEUE_GRAPHICS_BIT` flag and the surface-support query result. -/
structure QueueFamilyInfo where
  graphics : Bool
  present : Bool
deriving DecidableEq, Repr

/-- The queue-family scan of `Connect` (lines 238-251): ascending index
order, assign-and-break on the first family with both present support
and the graphics bit; when none matches, the global
`queue_family_index` keeps its prior value (`current`). -/
def findQueueFamily : List QueueFamilyInfo → Nat → Nat → Nat
  | [], _, current => current
  | f :: rest, i, current =>
    if f.present && f.graphics then i
    else findQueueFamily rest (i + 1) current

/-- The queue-family index `Connect` ends up with: the scan starting at
index 0, with the zero-initialised global as the fallback value. -/
def connectQueueFamilyIndex (families : List QueueFamilyInfo) : Nat :=
  findQueueFamily families 0 0

/-! ### The observable outcome of `Connect` (Vulkan.cpp lines 119-320) -/

/-- Driver results and enumerations that `Connect` encounters. The
four `...Ok` fields are the success of `vkCreateInstance`,
`vkCreateWaylandSurfaceKHR`, `vkCreateDevice` and
`vkCreateCommandPool` respectively. -/
structure ConnectEnv where
  instanceOk : Bool
  surfaceOk : Bool
  deviceOk : Bool
  commandPoolOk : Bool
  devices : List PhysicalDeviceInfo
  queueFamilies : List QueueFamilyInfo
deriving DecidableEq, Repr

/-- State the globals reach when `Connect` runs to completion. -/
structure ConnectState where
  selectedDevice : Option Nat
  queueFamilyIndex : Nat
deriving DecidableEq, Repr

/-- How a call to `Connect` ends: a process exit or a return value. -/
inductive ConnectOutcome
  | exited (code : Nat)
  | returned (ok : Bool) (st : ConnectState)
deriving DecidableEq, Repr

/-- The control flow of `Connect`: only the `vkCreateInstance` result
is tested (line 140, `exit(255)` on failure); the surface, logical
device and command pool creation results are discarded, and the
function ends with `return true` (line 319). -/
def Connect (env : ConnectEnv) : ConnectOutcome :=
  if env.instanceOk = false then .exited 255
  else .returned true
    { selectedDevice := connectSelect env.devices
      queueFamilyIndex := connectQueueFamilyIndex env.queueFamilies }

/-! ### Swapchain teardown (`EndSwapchain`, Vulkan.cpp lines 494-517) -/

/-- Resource-release calls `EndSwapchain` issues, in program order. -/
inductive ReleaseEvent
  | destroyFence (i : Nat)
  | destroyEndSemaphore (i : Nat)
  | destroyStartSemaphore (i : Nat)
  | destroyFramebuffer (i : Nat)
  | destroyImageView (i : Nat)
  | freeCommandBuffer (i : Nat)
  | destroyRenderPass
  | destroySwapchain
deriving DecidableEq, Repr

/-- The body of the per-image loop of `EndSwapchain` (lines 496-509):
the six release calls for `elements[i]`, in source order. -/
def releaseElement (i : Nat) : List ReleaseEvent :=
  [.destroyFence i, .destroyEndSemaphore i, .destroyStartSemaphore i,
   .destroyFramebuffer i, .destroyImageView i, .freeCommandBuffer i]

/-- The per-image loop of `EndSwapchain`, counting down the remaining
iterations while the index counts up from `i`. -/
def endSwapchainLoop : Nat → Nat → List ReleaseEvent
  | 0, _ => []
  | n + 1, i => releaseElement i ++ endSwapchainLoop n (i + 1)

/-- The full release trace of `EndSwapchain` for a given
`image_count`: the per-image loop from index 0, then
`vkDestroyRenderPass` and `vkDestroySwapchainKHR` (lines 512-513). -/
def endSwapchainEvents (imageCount : Nat) : List ReleaseEvent :=
  endSwapchainLoop imageCount 0 ++ [.destroyRenderPass, .destroySwapchain]

/-- Recognises the first release call of an image resource bundle. -/
def isBundleStart : ReleaseEvent → Bool
  | .destroyFence _ => true
  | _ => false

/-! ### Per-tick control flow of `Frame` (Vulkan.cpp lines 521-612) -/

/-- Result of `vkAcquireNextImageKHR` as `Frame` tests it: a success
carrying the acquired image index, or one of the two recreation
signals. Other error codes are not tested by the code (the commented
`CHECK_VK_RESULT` line) and are not modelled. -/
inductive AcquireResult
  | success (imageIndex : Nat)
  | outOfDate
  | suboptimal
deriving DecidableEq, Repr

/-- Result of `vkQueuePresentKHR` as `Frame` tests it. -/
inductive PresentResult
  | success
  | outOfDate
  | suboptimal
deriving DecidableEq, Repr

/-- Externally visible operations of one `Frame` tick. `create` is
`StartSwapchain` at the recorded extent; `submit` and `present` are
`vkQueueSubmit` and `vkQueuePresentKHR`. -/
inductive FrameEvent
  | waitIdle
  | destroy
  | create (width height : Nat)
  | submit
  | present
deriving DecidableEq, Repr

/-- Whether an acquire result takes the recreation branch of lines
531-538 (`VK_ERROR_OUT_OF_DATE_KHR || VK_SUBOPTIMAL_KHR`). -/
def acquireBad : AcquireResult → Bool
  | .success _ => false
  | .outOfDate => true
  | .suboptimal => true

/-- Whether a present result takes the recreation branch of lines
602-608. -/
def presentBad : PresentResult → Bool
  | .success => false
  | .outOfDate => true
  | .suboptimal => true

/-- Driver results consumed by one `Frame` tick. -/
structure TickInput where
  acquire : AcquireResult
  presentRes : PresentResult
deriving DecidableEq, Repr

/-- The event trace of one `Frame(width, height)` call, following the
control flow of lines 521-612: a bad acquire waits for device idle,
destroys and recreates the swapchain and returns before any submit or
present; otherwise the tick submits, presents, and recreates after the
present when the present result is bad. The present result is consumed
only when the acquire succeeded. -/
def frameEvents (t : TickInput) (width height : Nat) : List FrameEvent :=
  if acquireBad t.acquire then [.waitIdle, .destroy, .create width height]
  else
    [.submit, .present] ++
      (if presentBad t.presentRes
       then [.waitIdle, .destroy, .create width height]
       else [])

/-- Event trace of a sequence of `Frame` ticks at a fixed extent. -/
def runEvents (ticks : List TickInput) (width height : Nat) : List FrameEvent :=
  ticks.flatMap (fun t => frameEvents t width height)

/-- Number of out-of-date/suboptimal signals a tick consumes: a bad
acquire is one signal and hides the present result; a good acquire
consumes the present result as a possible second signal. -/
def tickBadSignals (t : TickInput) : Nat :=
  if acquireBad t.acquire then 1
  else if presentBad t.presentRes then 1 else 0

/-- Recognises a swapchain recreation in a frame event trace. -/
def isCreate : FrameEvent → Bool
  | .create _ _ => true
  | _ => false

/-! ### Wayland resize handshake (`Wayland.cpp` lines 531-692) and the
presentation loop (`Window.cpp` lines 13-18) -/

/-- The Wayland-side globals involved in resizing (lines 531-538):
the `resize` and `ready_to_resize` flags, the published dimensions and
the pending dimensions. -/
structure WaylandState where
  resize : Bool
  readyToResize : Bool
  width : Nat
  height : Nat
  newWidth : Nat
  newHeight : Nat
deriving DecidableEq, Repr

/-- `HandleWindowConfigure` (lines 552-566): a configure event with
nonzero dimensions records them and raises `resize`. -/
def handleWindowConfigure (w h : Nat) (st : WaylandState) : WaylandState :=
  if w ≠ 0 ∧ h ≠ 0
  then { st with resize := true, newWidth := w, newHeight := h }
  else st

/-- `HandleWMSConfigure` (lines 545-550): acknowledging the configure
handshake raises `ready_to_resize` only when a resize is pending. -/
def handleWMSConfigure (st : WaylandState) : WaylandState :=
  if st.resize then { st with readyToResize := true } else st

/-- `ResizeWindow` (Wayland.cpp lines 669-685): when both flags are
set, publish the new dimensions, run `WaitForIdle`, `EndSwapchain`,
`StartSwapchain(width, height)`, and clear both flags; otherwise do
nothing. Returns the new state with the emitted events. -/
def ResizeWindow (st : WaylandState) : WaylandState × List FrameEvent :=
  if st.readyToResize && st.resize then
    ({ st with
        width := st.newWidth
        height := st.newHeight
        readyToResize := false
        resize := false },
     [.waitIdle, .destroy, .create st.newWidth st.newHeight])
  else (st, [])

/-- One iteration of the presentation loop in `Window::Window`
(Window.cpp lines 13-18): `ResizeWindow()` first, then
`Frame(GetWidth(), GetHeight())` at the dimensions the resize step
left behind. -/
def loopTick (t : TickInput) (st : WaylandState) :
    WaylandState × List FrameEvent :=
  ((ResizeWindow st).1,
    (ResizeWindow st).2 ++
      frameEvents t (ResizeWindow st).1.width (ResizeWindow st).1.height)

/-! ### Frame synchronisation state (`Frame`, Vulkan.cpp lines 521-612)

`Frame` indexes a single array `elements` both by `current_frame`
(the frame slot whose fence, start and end semaphores drive the tick)
and by the acquired `image_index`.  The ring modulus is `image_count`
(line 611).  Fences are modelled by a signaled bit per index; the GPU
signalling a submitted fence is a separate step.  To reason about
in-flight work, the state carries two ghost fields: `pendingImage s`
is the image whose submission fence `s` currently guards, and
`inFlight i` records that the latest submission targeting image `i`
has not yet completed.  Both are write-only bookkeeping: no transition
branches on them. -/

/-- CPU-visible synchronisation state of the render loop. Indices are
plain `Nat`; only indices below `imageCount` are ever touched by
reachable transitions. -/
structure RenderState where
  imageCount : Nat
  currentFrame : Nat
  fenceSignaled : Nat → Bool
  lastFence : Nat → Option Nat
  pendingImage : Nat → Option Nat
  inFlight : Nat → Bool

/-- State right after `StartSwapchain` on a fresh connection: every
`elements[i].fence` is created pre-signaled
(`VK_FENCE_CREATE_SIGNALED_BIT`, line 485), every `lastFence` is null
(line 490), `current_frame` is 0, and nothing is in flight. -/
def startState (n : Nat) : RenderState where
  imageCount := n
  currentFrame := 0
  fenceSignaled := fun _ => true
  lastFence := fun _ => none
  pendingImage := fun _ => none
  inFlight := fun _ => false

/-- A successful `Frame` tick that acquired image `j`: set
`elements[j].lastFence := elements[current_frame].fence` (line 549),
reset that fence (line 551), submit work guarded by it (line 590,
recorded in the ghost fields), and advance
`current_frame := (current_frame + 1) % image_count` (line 611). -/
def frameTick (j : Nat) (st : RenderState) : RenderState where
  imageCount := st.imageCount
  currentFrame := (st.currentFrame + 1) % st.imageCount
  fenceSignaled := fun s =>
    if s = st.currentFrame then false else st.fenceSignaled s
  lastFence := fun i => if i = j then some st.currentFrame else st.lastFence i
  pendingImage := fun s =>
    if s = st.currentFrame then some j else st.pendingImage s
  inFlight := fun i => if i = j then true else st.inFlight i

/-- The GPU completing the submission guarded by fence `s`: the fence
becomes signaled and the image it guarded is no longer in flight. -/
def gpuSignal (s : Nat) (st : RenderState) : RenderState where
  imageCount := st.imageCount
  currentFrame := st.currentFrame
  fenceSignaled := fun f => if f = s then true else st.fenceSignaled f
  lastFence := st.lastFence
  pendingImage := fun f => if f = s then none else st.pendingImage f
  inFlight := fun i =>
    if st.pendingImage s = some i then false else st.inFlight i

/-- States reachable by successful `Frame` ticks interleaved with GPU
fence completions.  A tick requires what its two `vkWaitForFences`
calls (lines 525 and 545) establish: the slot fence is signaled when
the wait returns, and a non-null `lastFence` of the acquired image is
signaled when the wait on it returns.  A GPU completion fires only on
a fence that is actually unsignaled. -/
inductive Reach (n : Nat) : RenderState → Prop
  | start : Reach n (startState n)
  | tick {st : RenderState} (j : Nat) :
      Reach n st →
      j < n →
      st.fenceSignaled st.currentFrame = true →
      (∀ f, st.lastFence j = some f → st.fenceSignaled f = true) →
      Reach n (frameTick j st)
  | signal {st : RenderState} (s : Nat) :
      Reach n st →
      st.fenceSignaled s = false →
      Reach n (gpuSignal s st)

/-- The last-used-fence invariant exactly as the specification states
it: every image's `lastFence` is either null or equal to exactly one
currently-unsignaled frame-slot fence, a fence never being referenced
as last-used fence by two images simultaneously. -/
def claimedFenceInvariant (n : Nat) (st : RenderState) : Prop :=
  ∀ i, i < n →
    st.lastFence i = none ∨
      ∃ f, st.lastFence i = some f ∧ st.fenceSignaled f = false ∧
        ∀ i', i' < n → i' ≠ i → st.lastFence i' ≠ some f

/-- The invariant the code actually maintains: whenever image `i` has
an in-flight submission, its `lastFence` is the unsignaled fence that
guards exactly that submission. -/
def inFlightFenceInvariant (st : RenderState) : Prop :=
  ∀ i f, st.inFlight i = true → st.lastFence i = some f →
    st.fenceSignaled f = false ∧ st.pendingImage f = some i

/-- Auxiliary invariant: a signaled fence guards no submission. -/
def signaledFreeInvariant (st : RenderState) : Prop :=
  ∀ s, st.fenceSignaled s = true → st.pendingImage s = none

/-- Consequence: in-flight images never target the same slot fence. -/
def noSharedInFlightFence (st : RenderState) : Prop :=
  ∀ i i' f, st.inFlight i = true → st.inFlight i' = true →
    st.lastFence i = some f → st.lastFence i' = some f → i = i'

/-! ### Slot traces for concrete runs of `Frame` -/

/-- One event of a concrete run: a successful tick acquiring image
`j`, or the GPU signalling fence `s`. -/
inductive LoopEvent
  | tick (j : Nat)
  | signal (s : Nat)
deriving DecidableEq, Repr

/-- Execute one run event on the synchronisation state. -/
def stepEvent : LoopEvent → RenderState → RenderState
  | .tick j, st => frameTick j st
  | .signal s, st => gpuSignal s st

/-- Execute a run, final state. -/
def runState (evs : List LoopEvent) (st : RenderState) : RenderState :=
  evs.foldl (fun s e => stepEvent e s) st

/-- The frame-slot indices (`current_frame` at entry) of the ticks of
a run, in order. -/
def slotTrace (evs : List LoopEvent) (st : RenderState) : List Nat :=
  match evs with
  | [] => []
  | .tick j :: rest => st.currentFrame :: slotTrace rest (frameTick j st)
  | .signal s :: rest => slotTrace rest (gpuSignal s st)

/-- Whether every event of a run satisfies the wait conditions of
`Reach`: ticks find the slot fence signaled, acquire an index below
`imageCount` and find the image's `lastFence` (when non-null)
signaled; GPU signals fire on unsignaled fences. -/
def validRun (evs : List LoopEvent) (st : RenderState) : Bool :=
  match evs with
  | [] => true
  | .tick j :: rest =>
    decide (j < st.imageCount) && st.fenceSignaled st.currentFrame &&
      (match st.lastFence j with
       | none => true
       | some f => st.fenceSignaled f) &&
      validRun rest (frameTick j st)
  | .signal s :: rest =>
    !st.fenceSignaled s && validRun rest (gpuSignal s st)

/-- The concrete five-tick run of the wraparound scenario with
`image_count = 3`: three ticks use the three pre-signaled fences, the
GPU then completes fences 0 and 1, allowing ticks four and five. -/
def wraparoundRun : List LoopEvent :=
  [.tick 0, .tick 1, .tick 2, .signal 0, .tick 0, .signal 1, .tick 1]

/-! ## Theorems -/

/-! ### Image count (claim C2) -/

/-- C2, counterexample: with `minImageCount = 2` and
`maxImageCount = 3` the code requests 2 images, while
`clamp(minImageCount + 1, ..., maxImageCount)` is 3; the claimed
formula fails at this capability value. -/
theorem imageCount_not_clamp_at_2_3 :
    imageCountOf 2 3 = 2 ∧ imageCountClamped 2 3 = 3 ∧
      imageCountOf 2 3 ≠ imageCountClamped 2 3 := by
  refine ⟨by decide, by decide, by decide⟩

/-- C2, amended: barring `uint32_t` wraparound, `StartSwapchain` sets
`image_count` to `minImageCount + 1` when that is strictly below
`maxImageCount` and to `minImageCount` otherwise; this agrees with the
claimed clamp exactly when `minImageCount + 1 < maxImageCount` or
`minImageCount = maxImageCount`. -/
theorem imageCount_characterisation (minIC maxIC : Nat)
    (h : minIC + 1 < 2 ^ 32) :
    imageCountOf minIC maxIC =
      (if minIC + 1 < maxIC then minIC + 1 else minIC) ∧
    (imageCountOf minIC maxIC = imageCountClamped minIC maxIC ↔
      minIC + 1 < maxIC ∨ minIC = maxIC) := by
  unfold imageCountOf imageCountClamped
  rw [Nat.mod_eq_of_lt h]
  refine ⟨rfl, ?_⟩
  rw [Nat.min_def]
  split_ifs <;> omega

/-- C2, witness: the characterisation evaluated at
`minImageCount = 2`, `maxImageCount = 3`. -/
theorem imageCount_characterisation_witness :
    imageCountOf 2 3 = (if 2 + 1 < 3 then 2 + 1 else 2) ∧
    (imageCountOf 2 3 = imageCountClamped 2 3 ↔ 2 + 1 < 3 ∨ 2 = 3) :=
  imageCount_characterisation 2 3 (by decide)

/-! ### Swapchain teardown order (claim C8) -/

/-- The per-image loop of `EndSwapchain` releases the bundles of
indices `i, i + 1, ...` in ascending order. -/
lemma endSwapchainLoop_eq_range' (n : Nat) :
    ∀ i, endSwapchainLoop n i = (List.range' i n).flatMap releaseElement := by
  induction n with
  | zero => intro i; rfl
  | succ n ih =>
      intro i
      rw [endSwapchainLoop, List.range'_succ, List.flatMap_cons, ih]

/-- Each loop iteration of `EndSwapchain` starts exactly one bundle. -/
lemma countP_endSwapchainLoop (n : Nat) :
    ∀ i, (endSwapchainLoop n i).countP isBundleStart = n := by
  induction n with
  | zero => intro i; rfl
  | succ n ih =>
      intro i
      rw [endSwapchainLoop, List.countP_append, ih]
      have h1 : (releaseElement i).countP isBundleStart = 1 := rfl
      rw [h1, Nat.add_comm]

/-- C8: `EndSwapchain` releases, for each image index in ascending
order, the fence, the end (release) semaphore, the start (acquire)
semaphore, the framebuffer and the image view, and frees the command
buffer; after all `image_count` bundles it destroys the render pass
and then the swapchain handle, releasing exactly `image_count`
bundles in total. -/
theorem endSwapchain_release_order (n : Nat) :
    endSwapchainEvents n =
      (List.range n).flatMap
        (fun i =>
          [.destroyFence i, .destroyEndSemaphore i,
           .destroyStartSemaphore i, .destroyFramebuffer i,
           .destroyImageView i, .freeCommandBuffer i]) ++
        [.destroyRenderPass, .destroySwapchain] ∧
    (endSwapchainEvents n).countP isBundleStart = n := by
  constructor
  · rw [endSwapchainEvents, endSwapchainLoop_eq_range',
      List.range_eq_range']
    rfl
  · rw [endSwapchainEvents, List.countP_append, countP_endSwapchainLoop]
    rfl

/-! ### Recreation counting (claim C4) -/

/-- One tick produces exactly as many `StartSwapchain` calls as the
out-of-date/suboptimal signals it consumes. -/
lemma frameEvents_createCount (t : TickInput) (w h : Nat) :
    (frameEvents t w h).countP isCreate = tickBadSignals t := by
  obtain ⟨a, p⟩ := t
  cases a <;> cases p <;> rfl

/-- C4: over any sequence of driver results, the swapchain is
destroyed and recreated exactly as many times as out-of-date or
suboptimal signals are consumed, and a tick whose acquire signals
out-of-date or suboptimal consists exactly of the device-idle wait,
the destroy and the recreation at the given extent — no submit and no
present. -/
theorem frame_recreation_count (ticks : List TickInput) (w h : Nat) :
    (runEvents ticks w h).countP isCreate =
      (ticks.map tickBadSignals).sum ∧
    ∀ t : TickInput, acquireBad t.acquire = true →
      frameEvents t w h = [.waitIdle, .destroy, .create w h] := by
  constructor
  · induction ticks with
    | nil => rfl
    | cons t rest ih =>
        rw [runEvents, List.flatMap_cons, List.countP_append,
          frameEvents_createCount, List.map_cons, List.sum_cons]
        exact congrArg (tickBadSignals t + ·) ih
  · intro t ht
    rw [frameEvents, if_pos ht]

/-- C4, witness: a run with one bad acquire and one clean tick
recreates once, and the bad tick is the pure recreation trace. -/
theorem frame_recreation_count_witness :
    ((runEvents [⟨.outOfDate, .success⟩, ⟨.success 0, .success⟩]
        640 480).countP isCreate =
      ([(⟨.outOfDate, .success⟩ : TickInput),
        ⟨.success 0, .success⟩].map tickBadSignals).sum) ∧
    frameEvents ⟨.outOfDate, .success⟩ 640 480 =
      [.waitIdle, .destroy, .create 640 480] :=
  ⟨(frame_recreation_count
      [⟨.outOfDate, .success⟩, ⟨.success 0, .success⟩] 640 480).1,
   (frame_recreation_count
      [⟨.outOfDate, .success⟩, ⟨.success 0, .success⟩] 640 480).2
      ⟨.outOfDate, .success⟩ (by decide)⟩

/-! ### Resize handshake (claim C7) -/

/-- C7: with the resize-ready handshake complete, the next loop tick
first performs exactly the `WaitForIdle`, `EndSwapchain`,
`StartSwapchain(new extent)` cycle, publishes the new dimensions,
clears both flags, and drives `Frame` at the new dimensions; when
acquire and present both succeed the whole tick contains exactly one
recreation.  Without the handshake no recreation happens at the top
of a tick, and acknowledging the configure handshake raises
`ready_to_resize` only when a resize is pending. -/
theorem resize_tick_behaviour (st : WaylandState) (t : TickInput)
    (hready : st.readyToResize = true) (hresize : st.resize = true) :
    ((ResizeWindow st).2 =
        [.waitIdle, .destroy, .create st.newWidth st.newHeight] ∧
      (ResizeWindow st).1.width = st.newWidth ∧
      (ResizeWindow st).1.height = st.newHeight ∧
      (ResizeWindow st).1.resize = false ∧
      (ResizeWindow st).1.readyToResize = false) ∧
    (loopTick t st).2 =
      [.waitIdle, .destroy, .create st.newWidth st.newHeight] ++
        frameEvents t st.newWidth st.newHeight ∧
    (acquireBad t.acquire = false → presentBad t.presentRes = false →
      (loopTick t st).2.countP isCreate = 1) ∧
    (∀ st2 : WaylandState, (st2.readyToResize && st2.resize) = false →
      ResizeWindow st2 = (st2, []) ∧
        (loopTick t st2).2 = frameEvents t st2.width st2.height) ∧
    (∀ st3 : WaylandState,
      (handleWMSConfigure st3).readyToResize =
        (st3.readyToResize || st3.resize)) := by
  have hcond : (st.readyToResize && st.resize) = true := by
    rw [hready, hresize]; rfl
  refine ⟨?_, ?_, ?_, ?_, ?_⟩
  · rw [ResizeWindow, if_pos hcond]
    exact ⟨rfl, rfl, rfl, rfl, rfl⟩
  · rw [loopTick, ResizeWindow, if_pos hcond]
  · intro hA hP
    rw [loopTick, ResizeWindow, if_pos hcond]
    simp only [List.countP_append, frameEvents, hA, hP]
    rfl
  · intro st2 h2
    constructor
    · rw [ResizeWindow, if_neg (by simp [h2])]
    · rw [loopTick, ResizeWindow, if_neg (by simp [h2])]
      rfl
  · intro st3
    rw [handleWMSConfigure]
    by_cases h3 : st3.resize = true
    · rw [if_pos h3, h3]
      simp
    · rw [if_neg h3]
      simp [Bool.of_not_eq_true h3]

/-- C7, witness: the resize scenario of the specification, from
(800, 600) to (1024, 768), with a clean acquire and present. -/
theorem resize_tick_behaviour_witness :
    (ResizeWindow ⟨true, true, 800, 600, 1024, 768⟩).2 =
        [.waitIdle, .destroy, .create 1024 768] ∧
      (loopTick ⟨.success 0, .success⟩
          ⟨true, true, 800, 600, 1024, 768⟩).2.countP isCreate = 1 :=
  ⟨(resize_tick_behaviour ⟨true, true, 800, 600, 1024, 768⟩
      ⟨.success 0, .success⟩ rfl rfl).1.1,
   (resize_tick_behaviour ⟨true, true, 800, 600, 1024, 768⟩
      ⟨.success 0, .success⟩ rfl rfl).2.2.1 rfl rfl⟩

/-! ### Device selection (claims C9 and C5) -/

/-- Unfolding of `maxScore` on a cons cell. -/
lemma maxScore_cons (t : DeviceType) (l : List DeviceType) :
    maxScore (t :: l) = Nat.max (scoreN t) (maxScore l) := rfl

/-- When nothing in the remaining list beats the running best score,
the selection loop leaves its accumulator untouched. -/
lemma selectLoop_skip_of_le (l : List DeviceType) :
    ∀ i best bs, maxScore l ≤ bs → selectLoop l i best bs = (best, bs) := by
  induction l with
  | nil => intro i best bs _; rfl
  | cons t rest ih =>
      intro i best bs hle
      rw [maxScore_cons] at hle
      have h1 : scoreN t ≤ bs := le_trans (Nat.le_max_left _ _) hle
      have h2 : maxScore rest ≤ bs := le_trans (Nat.le_max_right _ _) hle
      cases hds : deviceScore t with
      | none => simp only [selectLoop, hds]; exact ih _ _ _ h2
      | some score =>
          have hs : score ≤ bs := by rw [scoreN, hds] at h1; exact h1
          simp only [selectLoop, hds, if_neg (Nat.not_lt.mpr hs)]
          exact ih _ _ _ h2

/-- When some remaining device beats the running best score, the loop
returns the index of the leftmost device attaining the maximum
remaining score: the strictly highest score wins, first found wins
ties. -/
lemma selectLoop_finds_max (l : List DeviceType) :
    ∀ i0 best bs, bs < maxScore l →
      ∃ k t, l[k]? = some t ∧ scoreN t = maxScore l ∧
        (∀ j u, j < k → l[j]? = some u → scoreN u < maxScore l) ∧
        (selectLoop l i0 best bs).1 = some (i0 + k) := by
  induction l with
  | nil =>
      intro i0 best bs h
      exact absurd h (by simp [maxScore])
  | cons t rest ih =>
      intro i0 best bs h
      rw [maxScore_cons] at h
      cases hds : deviceScore t with
      | none =>
          have ht0 : scoreN t = 0 := by rw [scoreN, hds]; rfl
          have hmax : Nat.max (scoreN t) (maxScore rest) = maxScore rest := by
            rw [ht0]; exact Nat.zero_max _
          rw [hmax] at h
          obtain ⟨k, u, hk, hu, hbefore, hres⟩ := ih (i0 + 1) best bs h
          refine ⟨k + 1, u, ?_, ?_, ?_, ?_⟩
          · rw [List.getElem?_cons_succ]; exact hk
          · rw [maxScore_cons, hmax]; exact hu
          · intro j v hj hv
            rw [maxScore_cons, hmax]
            cases j with
            | zero =>
                rw [List.getElem?_cons_zero] at hv
                injection hv with hv
                rw [← hv, ht0]
                exact Nat.lt_of_le_of_lt (Nat.zero_le bs) h
            | succ j' =>
                rw [List.getElem?_cons_succ] at hv
                exact hbefore j' v (Nat.lt_of_succ_lt_succ hj) hv
          · simp only [selectLoop, hds]
            rw [hres, Nat.add_assoc, Nat.add_comm 1 k]
      | some score =>
          have hts : scoreN t = score := by rw [scoreN, hds]; rfl
          by_cases hbs : bs < score
          · by_cases hM : maxScore rest ≤ score
            · have hmax : Nat.max (scoreN t) (maxScore rest) = score := by
                rw [hts]; exact Nat.max_eq_left hM
              refine ⟨0, t, List.getElem?_cons_zero, ?_, ?_, ?_⟩
              · rw [maxScore_cons, hmax]; exact hts
              · intro j u hj; exact absurd hj (Nat.not_lt_zero j)
              · simp only [selectLoop, hds, if_pos hbs]
                rw [selectLoop_skip_of_le rest _ _ _ hM, Nat.add_zero]
            · push_neg at hM
              have hmax : Nat.max (scoreN t) (maxScore rest) = maxScore rest := by
                rw [hts]; exact Nat.max_eq_right (Nat.le_of_lt hM)
              obtain ⟨k, u, hk, hu, hbefore, hres⟩ :=
                ih (i0 + 1) (some i0) score hM
              refine ⟨k + 1, u, ?_, ?_, ?_, ?_⟩
              · rw [List.getElem?_cons_succ]; exact hk
              · rw [maxScore_cons, hmax]; exact hu
              · intro j v hj hv
                rw [maxScore_cons, hmax]
                cases j with
                | zero =>
                    rw [List.getElem?_cons_zero] at hv
                    injection hv with hv
                    rw [← hv, hts]
                    exact hM
                | succ j' =>
                    rw [List.getElem?_cons_succ] at hv
                    exact hbefore j' v (Nat.lt_of_succ_lt_succ hj) hv
              · simp only [selectLoop, hds, if_pos hbs]
                rw [hres, Nat.add_assoc, Nat.add_comm 1 k]
          · have hsbs : score ≤ bs := Nat.not_lt.mp hbs
            have hM : bs < maxScore rest := by
              rcases lt_max_iff.mp h with h1 | h2
              · rw [hts] at h1; exact absurd h1 hbs
              · exact h2
            have hmax : Nat.max (scoreN t) (maxScore rest) = maxScore rest := by
              rw [hts]
              exact Nat.max_eq_right (le_trans hsbs (Nat.le_of_lt hM))
            obtain ⟨k, u, hk, hu, hbefore, hres⟩ := ih (i0 + 1) best bs hM
            refine ⟨k + 1, u, ?_, ?_, ?_, ?_⟩
            · rw [List.getElem?_cons_succ]; exact hk
            · rw [maxScore_cons, hmax]; exact hu
            · intro j v hj hv
              rw [maxScore_cons, hmax]
              cases j with
              | zero =>
                  rw [List.getElem?_cons_zero] at hv
                  injection hv with hv
                  rw [← hv, hts]
                  exact Nat.lt_of_le_of_lt hsbs hM
              | succ j' =>
                  rw [List.getElem?_cons_succ] at hv
                  exact hbefore j' v (Nat.lt_of_succ_lt_succ hj) hv
            · simp only [selectLoop, hds, if_neg hbs]
              rw [hres, Nat.add_assoc, Nat.add_comm 1 k]

/-- No device class scores above the discrete-GPU score 5. -/
lemma scoreN_le_five (t : DeviceType) : scoreN t ≤ 5 := by
  cases t <;> decide

/-- Only the discrete class attains score 5. -/
lemma scoreN_eq_five (t : DeviceType) (h : scoreN t = 5) :
    t = .discreteGpu := by
  cases t <;> first | rfl | exact absurd h (by decide)

/-- An upper bound on every member bounds the maximum score. -/
lemma maxScore_le (l : List DeviceType) (c : Nat)
    (h : ∀ t ∈ l, scoreN t ≤ c) : maxScore l ≤ c := by
  induction l with
  | nil => exact Nat.zero_le c
  | cons t rest ih =>
      rw [maxScore_cons]
      exact Nat.max_le.mpr
        ⟨h t (List.mem_cons_self t rest),
         ih fun u hu => h u (List.mem_cons_of_mem t hu)⟩

/-- A member's score bounds the maximum score from below. -/
lemma le_maxScore_of_mem (l : List DeviceType) (t : DeviceType)
    (h : t ∈ l) : scoreN t ≤ maxScore l := by
  induction l with
  | nil => exact absurd h (List.not_mem_nil t)
  | cons u rest ih =>
      rw [maxScore_cons]
      rcases List.mem_cons.mp h with h1 | h2
      · rw [h1]; exact Nat.le_max_left _ _
      · exact le_trans (ih h2) (Nat.le_max_right _ _)

/-- C9: the device classes map to the fixed priority order
discrete > integrated > virtual > software (CPU) > other; selection
returns no device when every candidate is skipped or scores 0, and
otherwise returns the leftmost candidate attaining the strictly
highest score (first found wins ties); in particular any enumeration
order of a discrete, an integrated and a CPU candidate selects the
discrete one. -/
theorem device_selection_priority :
    (scoreN .discreteGpu > scoreN .integratedGpu ∧
      scoreN .integratedGpu > scoreN .virtualGpu ∧
      scoreN .virtualGpu > scoreN .cpuDevice ∧
      scoreN .cpuDevice > scoreN .otherDevice ∧
      scoreN .otherDevice > scoreN .unknownType) ∧
    (∀ l : List DeviceType, maxScore l = 0 → selectDevice l = none) ∧
    (∀ l : List DeviceType, 0 < maxScore l →
      ∃ k t, l[k]? = some t ∧ scoreN t = maxScore l ∧
        (∀ j u, j < k → l[j]? = some u → scoreN u < maxScore l) ∧
        selectDevice l = some k) ∧
    (∀ (l : List PhysicalDeviceInfo) (g1 g2 g3 : Bool),
      l.Perm [⟨.discreteGpu, g1⟩, ⟨.integratedGpu, g2⟩, ⟨.cpuDevice, g3⟩] →
      ∃ k d, l[k]? = some d ∧ d.deviceType = .discreteGpu ∧
        connectSelect l = some k) := by
  refine ⟨by decide, ?_, ?_, ?_⟩
  · intro l h0
    rw [selectDevice, selectLoop_skip_of_le l 0 none 0 (Nat.le_of_eq h0)]
  · intro l hpos
    obtain ⟨k, t, hk, ht, hbefore, hres⟩ := selectLoop_finds_max l 0 none 0 hpos
    exact ⟨k, t, hk, ht, hbefore, by rw [selectDevice, hres, Nat.zero_add]⟩
  · intro l g1 g2 g3 hperm
    have hperm2 : (l.map PhysicalDeviceInfo.deviceType).Perm
        [.discreteGpu, .integratedGpu, .cpuDevice] := by
      have := hperm.map PhysicalDeviceInfo.deviceType
      simpa using this
    have hmem : DeviceType.discreteGpu ∈ l.map PhysicalDeviceInfo.deviceType :=
      hperm2.mem_iff.mpr (by simp)
    have hfive : maxScore (l.map PhysicalDeviceInfo.deviceType) = 5 := by
      refine Nat.le_antisymm ?_ ?_
      · exact maxScore_le _ 5 fun t _ => scoreN_le_five t
      · exact le_maxScore_of_mem _ _ hmem
    obtain ⟨k, t, hk, ht, _, hres⟩ :=
      selectLoop_finds_max (l.map PhysicalDeviceInfo.deviceType) 0 none 0
        (by rw [hfive]; exact Nat.succ_pos 4)
    rw [hfive] at ht
    have htd : t = .discreteGpu := scoreN_eq_five t ht
    rw [List.getElem?_map] at hk
    obtain ⟨d, hd, hdt⟩ := Option.map_eq_some'.mp hk
    refine ⟨k, d, hd, by rw [hdt, htd], ?_⟩
    rw [connectSelect, selectDevice, hres, Nat.zero_add]

/-- C9, witness: one enumeration order — integrated first, discrete
second, CPU third — selects the discrete device at index 1. -/
theorem device_selection_priority_witness :
    ∃ k d,
      ([⟨.integratedGpu, true⟩, ⟨.discreteGpu, false⟩, ⟨.cpuDevice, true⟩] :
        List PhysicalDeviceInfo)[k]? = some d ∧
      d.deviceType = .discreteGpu ∧
      connectSelect
        [⟨.integratedGpu, true⟩, ⟨.discreteGpu, false⟩, ⟨.cpuDevice, true⟩] =
        some k :=
  device_selection_priority.2.2.2
    [⟨.integratedGpu, true⟩, ⟨.discreteGpu, false⟩, ⟨.cpuDevice, true⟩]
    false true true (by decide)

/-- C5, counterexample: a discrete GPU without geometry-shader support
is selected over an integrated GPU with it, even though `RateGPU`
scores the selected device 0 — the selection loop never consults
`RateGPU` or the feature bits. -/
theorem geometry_requirement_not_enforced :
    connectSelect [⟨.discreteGpu, false⟩, ⟨.integratedGpu, true⟩] = some 0 ∧
    RateGPU ⟨.discreteGpu, false⟩ = 0 ∧
    ([⟨.discreteGpu, false⟩, ⟨.integratedGpu, true⟩] :
        List PhysicalDeviceInfo)[0]? = some ⟨.discreteGpu, false⟩ ∧
    (⟨.discreteGpu, false⟩ : PhysicalDeviceInfo).geometryShader = false := by
  decide

/-- C5, amended: `RateGPU` does score a candidate without
geometry-shader support 0, but device selection in `Connect` depends
only on the device types of the candidates, so the feature
requirement never excludes anything. -/
theorem rateGPU_zero_but_selection_ignores_features
    (d : PhysicalDeviceInfo) (hg : d.geometryShader = false) :
    RateGPU d = 0 ∧
    ∀ l l' : List PhysicalDeviceInfo,
      l.map PhysicalDeviceInfo.deviceType =
        l'.map PhysicalDeviceInfo.deviceType →
      connectSelect l = connectSelect l' := by
  constructor
  · rw [RateGPU, hg]; rfl
  · intro l l' hmap
    rw [connectSelect, connectSelect, hmap]

/-- C5, witness: the amended statement at a featureless discrete GPU
and two lists differing only in feature bits. -/
theorem rateGPU_zero_but_selection_ignores_features_witness :
    RateGPU ⟨.discreteGpu, false⟩ = 0 ∧
    connectSelect [⟨.discreteGpu, false⟩] =
      connectSelect [⟨.discreteGpu, true⟩] :=
  ⟨(rateGPU_zero_but_selection_ignores_features ⟨.discreteGpu, false⟩ rfl).1,
   (rateGPU_zero_but_selection_ignores_features ⟨.discreteGpu, false⟩ rfl).2
      [⟨.discreteGpu, false⟩] [⟨.discreteGpu, true⟩] rfl⟩

/-! ### Queue-family selection (claim C6) -/

/-- When no family qualifies, the scan falls through and keeps the
prior value of `queue_family_index`. -/
lemma findQueueFamily_no_match (fams : List QueueFamilyInfo) :
    ∀ i cur, (∀ f ∈ fams, (f.present && f.graphics) = false) →
      findQueueFamily fams i cur = cur := by
  induction fams with
  | nil => intro i cur _; rfl
  | cons f rest ih =>
      intro i cur hall
      have hf : (f.present && f.graphics) = false :=
        hall f (List.mem_cons_self f rest)
      rw [findQueueFamily, if_neg (by rw [hf]; exact Bool.false_ne_true)]
      exact ih _ _ fun g hg => hall g (List.mem_cons_of_mem f hg)

/-- The scan returns the index of the first qualifying family. -/
lemma findQueueFamily_first_match (fams : List QueueFamilyInfo) :
    ∀ i cur k f, fams[k]? = some f →
      (f.present && f.graphics) = true →
      (∀ j g, j < k → fams[j]? = some g →
        (g.present && g.graphics) = false) →
      findQueueFamily fams i cur = i + k := by
  induction fams with
  | nil => intro i cur k f hk; rw [List.getElem?_nil] at hk; exact absurd hk (by simp)
  | cons f0 rest ih =>
      intro i cur k f hk hf hbefore
      cases k with
      | zero =>
          rw [List.getElem?_cons_zero] at hk
          injection hk with hk
          rw [findQueueFamily, if_pos (by rw [hk, hf]), Nat.add_zero]
      | succ k' =>
          have h0 : (f0.present && f0.graphics) = false :=
            hbefore 0 f0 (Nat.succ_pos k') List.getElem?_cons_zero
          rw [findQueueFamily,
            if_neg (by rw [h0]; exact Bool.false_ne_true)]
          rw [List.getElem?_cons_succ] at hk
          rw [ih (i + 1) cur k' f hk hf
            (fun j g hj hg => hbefore (j + 1) g (Nat.succ_lt_succ hj)
              (by rw [List.getElem?_cons_succ]; exact hg))]
          omega

/-- C6, counterexample: with a single queue family that supports
presentation but not graphics, no family qualifies, yet `Connect`
raises no error: it leaves `queue_family_index` at its zero-initialised
value and returns `true`. -/
theorem no_queue_family_is_not_an_error :
    connectQueueFamilyIndex [⟨false, true⟩] = 0 ∧
    Connect
      { instanceOk := true, surfaceOk := true, deviceOk := true,
        commandPoolOk := true, devices := [⟨.discreteGpu, true⟩],
        queueFamilies := [⟨false, true⟩] } =
      .returned true { selectedDevice := some 0, queueFamilyIndex := 0 } := by
  decide

/-- C6, amended: `Connect` scans queue families in ascending index
order and selects the first that reports both presentation support
and the graphics bit; when no family qualifies it does not fail —
`queue_family_index` keeps its zero-initialised value and `Connect`
still returns `true` (given instance creation succeeded). -/
theorem queue_family_scan (fams : List QueueFamilyInfo)
    (k : Nat) (f : QueueFamilyInfo) (hk : fams[k]? = some f)
    (hf : (f.present && f.graphics) = true)
    (hfirst : ∀ j g, j < k → fams[j]? = some g →
      (g.present && g.graphics) = false) :
    connectQueueFamilyIndex fams = k ∧
    ∀ fams' : List QueueFamilyInfo,
      (∀ g ∈ fams', (g.present && g.graphics) = false) →
      connectQueueFamilyIndex fams' = 0 ∧
      ∀ env : ConnectEnv, env.instanceOk = true → env.queueFamilies = fams' →
        Connect env = .returned true
          { selectedDevice := connectSelect env.devices
            queueFamilyIndex := 0 } := by
  constructor
  · rw [connectQueueFamilyIndex,
      findQueueFamily_first_match fams 0 0 k f hk hf hfirst, Nat.zero_add]
  · intro fams' hnone
    have hzero : connectQueueFamilyIndex fams' = 0 :=
      findQueueFamily_no_match fams' 0 0 hnone
    refine ⟨hzero, ?_⟩
    intro env hio hqf
    rw [Connect, if_neg (by simp [hio]), hqf, hzero]

/-- C6, witness: the scan selects index 1 when family 0 lacks the
graphics bit and family 1 has both bits, and a list whose only family
lacks graphics produces index 0 with a successful `Connect`. -/
theorem queue_family_scan_witness :
    connectQueueFamilyIndex [⟨false, true⟩, ⟨true, true⟩] = 1 ∧
    connectQueueFamilyIndex [⟨false, true⟩] = 0 := by
  have h := queue_family_scan [⟨false, true⟩, ⟨true, true⟩] 1 ⟨true, true⟩
    (by decide) (by decide)
    (by
      intro j g hj hg
      have hj0 : j = 0 := Nat.lt_one_iff.mp hj
      subst hj0
      rw [List.getElem?_cons_zero] at hg
      injection hg with hg
      rw [← hg]
      rfl)
  exact ⟨h.1,
    (h.2 [⟨false, true⟩]
      (by
        intro g hg
        have := List.mem_singleton.mp hg
        rw [this]
        rfl)).1⟩

/-! ### Observable outcome of `Connect` (claim C10) -/

/-- C10: `Connect` never returns `false`: it exits the process with
code 255 exactly when instance creation fails, and returns `true`
otherwise; the surface, logical-device and command-pool creation
results have no influence on the outcome, so their failures cannot be
observed through the return value. -/
theorem connect_never_returns_false (env env' : ConnectEnv)
    (hio : env.instanceOk = env'.instanceOk)
    (hdev : env.devices = env'.devices)
    (hqf : env.queueFamilies = env'.queueFamilies) :
    (∀ st : ConnectState, Connect env ≠ .returned false st) ∧
    (env.instanceOk = false ↔ Connect env = .exited 255) ∧
    Connect env = Connect env' := by
  refine ⟨?_, ?_, ?_⟩
  · intro st h
    rw [Connect] at h
    by_cases hi : env.instanceOk = false
    · rw [if_pos hi] at h; exact ConnectOutcome.noConfusion h
    · rw [if_neg hi] at h
      exact absurd (ConnectOutcome.returned.inj h).1 (by decide)
  · constructor
    · intro hi; rw [Connect, if_pos hi]
    · intro h
      by_contra hi
      rw [Connect, if_neg hi] at h
      exact ConnectOutcome.noConfusion h
  · rw [Connect, Connect, hio, hdev, hqf]

/-- C10, witness: two environments agreeing on instance creation and
enumerations but disagreeing on every unchecked creation result give
the same outcome, which is not a `false` return. -/
theorem connect_never_returns_false_witness :
    Connect
        { instanceOk := true, surfaceOk := true, deviceOk := true,
          commandPoolOk := true, devices := [], queueFamilies := [] } ≠
      .returned false { selectedDevice := none, queueFamilyIndex := 0 } ∧
    Connect
        { instanceOk := true, surfaceOk := true, deviceOk := true,
          commandPoolOk := true, devices := [], queueFamilies := [] } =
      Connect
        { instanceOk := true, surfaceOk := false, deviceOk := false,
          commandPoolOk := false, devices := [], queueFamilies := [] } :=
  ⟨(connect_never_returns_false
      { instanceOk := true, surfaceOk := true, deviceOk := true,
        commandPoolOk := true, devices := [], queueFamilies := [] }
      { instanceOk := true, surfaceOk := false, deviceOk := false,
        commandPoolOk := false, devices := [], queueFamilies := [] }
      rfl rfl rfl).1 { selectedDevice := none, queueFamilyIndex := 0 },
   (connect_never_returns_false
      { instanceOk := true, surfaceOk := true, deviceOk := true,
        commandPoolOk := true, devices := [], queueFamilies := [] }
      { instanceOk := true, surfaceOk := false, deviceOk := false,
        commandPoolOk := false, devices := [], queueFamilies := [] }
      rfl rfl rfl).2.2⟩

/-! ### Frame-slot ring size and wraparound (claim C3) -/

/-- C3, counterexample: `current_frame` advances modulo `image_count`
(line 611), so the ring is not of a fixed size independent of the
image count; with `image_count = 3` a valid run of five successful
`Frame` calls yields the slot sequence `[0, 1, 2, 0, 1]`, not the
claimed `[0, 1, 0, 1, 0]`. -/
theorem frame_slot_ring_not_independent :
    validRun wraparoundRun (startState 3) = true ∧
    slotTrace wraparoundRun (startState 3) = [0, 1, 2, 0, 1] ∧
    slotTrace wraparoundRun (startState 3) ≠ [0, 1, 0, 1, 0] := by
  refine ⟨by decide, by decide, by decide⟩

/-- C3, amended: the frame-slot ring is the swapchain element array
itself: `current_frame` advances modulo `image_count`, so with
`image_count = 3` five consecutive successful `Frame` calls produce
the slot sequence `[0, 1, 2, 0, 1]`; an image's last-used fence is
rewritten exactly on the calls in which that image is acquired and is
untouched by GPU completions. -/
theorem frame_slot_ring_amended :
    (∀ (st : RenderState) (j : Nat),
      (frameTick j st).currentFrame = (st.currentFrame + 1) % st.imageCount) ∧
    (∀ (st : RenderState) (j i : Nat), i ≠ j →
      (frameTick j st).lastFence i = st.lastFence i) ∧
    (∀ (st : RenderState) (j : Nat),
      (frameTick j st).lastFence j = some st.currentFrame) ∧
    (∀ (st : RenderState) (s : Nat),
      (gpuSignal s st).lastFence = st.lastFence) ∧
    validRun wraparoundRun (startState 3) = true ∧
    slotTrace wraparoundRun (startState 3) = [0, 1, 2, 0, 1] := by
  refine ⟨fun st j => rfl, ?_, ?_, fun st s => rfl, by decide, by decide⟩
  · intro st j i hij
    simp only [frameTick]
    rw [if_neg hij]
  · intro st j
    simp [frameTick]

/-- C3, witness: a tick acquiring image 0 leaves image 1's last-used
fence untouched, and the five-tick run realises `[0, 1, 2, 0, 1]`. -/
theorem frame_slot_ring_amended_witness :
    (frameTick 0 (startState 3)).lastFence 1 = (startState 3).lastFence 1 ∧
    slotTrace wraparoundRun (startState 3) = [0, 1, 2, 0, 1] :=
  ⟨frame_slot_ring_amended.2.1 (startState 3) 0 1 (by decide),
   frame_slot_ring_amended.2.2.2.2.2⟩

/-! ### The last-used-fence invariant (claim C1) -/

/-- Every reachable synchronisation state satisfies the in-flight
fence invariant together with the auxiliary fact that signaled fences
guard no submission. -/
lemma reach_invariants (n : Nat) (st : RenderState) (h : Reach n st) :
    inFlightFenceInvariant st ∧ signaledFreeInvariant st := by
  induction h with
  | start =>
      constructor
      · intro i f hin
        exact absurd hin (by simp [startState])
      · intro s _
        rfl
  | tick j hre hj hsig hlast ih =>
      rename_i st
      obtain ⟨hinv, haux⟩ := ih
      constructor
      · intro i f hin hlf
        by_cases hij : i = j
        · subst hij
          simp only [frameTick, if_pos rfl] at hlf
          injection hlf with hlf
          subst hlf
          simp only [frameTick, if_pos rfl]
          exact ⟨rfl, rfl⟩
        · simp only [frameTick, if_neg hij] at hin hlf
          obtain ⟨hf1, hf2⟩ := hinv i f hin hlf
          have hfcf : f ≠ st.currentFrame := by
            intro heq
            rw [heq, hsig] at hf1
            exact Bool.noConfusion hf1
          simp only [frameTick, if_neg hfcf]
          exact ⟨hf1, hf2⟩
      · intro s hs
        by_cases hscf : s = st.currentFrame
        · subst hscf
          simp only [frameTick, if_pos rfl] at hs
          exact Bool.noConfusion hs
        · simp only [frameTick, if_neg hscf] at hs ⊢
          exact haux s hs
  | signal s hre huns ih =>
      rename_i st
      obtain ⟨hinv, haux⟩ := ih
      constructor
      · intro i f hin hlf
        simp only [gpuSignal] at hin hlf
        by_cases hps : st.pendingImage s = some i
        · rw [if_pos hps] at hin
          exact Bool.noConfusion hin
        · rw [if_neg hps] at hin
          obtain ⟨hf1, hf2⟩ := hinv i f hin hlf
          have hfs : f ≠ s := by
            intro heq
            rw [heq] at hf2
            exact hps hf2
          simp only [gpuSignal, if_neg hfs]
          exact ⟨hf1, hf2⟩
      · intro s2 hs2
        simp only [gpuSignal] at hs2 ⊢
        by_cases hss : s2 = s
        · rw [if_pos hss]
        · rw [if_neg hss] at hs2 ⊢
          exact haux s2 hs2

/-- C1, counterexample: after one successful tick on a one-image
swapchain followed by the GPU completing the submission, image 0's
`lastFence` still points at fence 0, which is signaled again — the
reachable state violates the claimed invariant that a non-null
last-used fence equals a currently-unsignaled frame-slot fence. -/
theorem claimed_fence_invariant_fails :
    Reach 1 (gpuSignal 0 (frameTick 0 (startState 1))) ∧
    ¬ claimedFenceInvariant 1 (gpuSignal 0 (frameTick 0 (startState 1))) := by
  constructor
  · exact Reach.signal 0
      (Reach.tick 0 Reach.start (by decide) rfl
        (fun f hf => Option.noConfusion hf))
      rfl
  · intro hclaim
    rcases hclaim 0 (by decide) with h0 | ⟨f, hf, hunsig, _⟩
    · exact Option.noConfusion h0
    · have hf0 : (0 : Nat) = f := Option.some.inj hf
      rw [← hf0] at hunsig
      exact Bool.noConfusion hunsig

/-- C1, amended: in every reachable state, an image with an in-flight
submission has a non-null `lastFence` that is an unsignaled frame-slot
fence guarding exactly that image's submission; hence no two images
with in-flight submissions share a last-used fence.  (A `lastFence` of
a completed submission may keep pointing at a fence that has been
signaled or reused — `Frame` waits on such a fence before overwriting
it and resets the slot fence only after recording the new
reference.) -/
theorem inflight_fence_uniqueness (n : Nat) (st : RenderState)
    (h : Reach n st) :
    inFlightFenceInvariant st ∧ noSharedInFlightFence st := by
  have hinv := reach_invariants n st h
  refine ⟨hinv.1, ?_⟩
  intro i i' f hi hi' hlf hlf'
  have h1 := hinv.1 i f hi hlf
  have h2 := hinv.1 i' f hi' hlf'
  have h3 : (some i : Option Nat) = some i' := h1.2.symm.trans h2.2
  exact Option.some.inj h3

/-- C1, witness: the invariant holds at the reachable state after a
first tick acquiring image 0 on a one-image swapchain. -/
theorem inflight_fence_uniqueness_witness :
    inFlightFenceInvariant (frameTick 0 (startState 1)) ∧
    noSharedInFlightFence (frameTick 0 (startState 1)) :=
  inflight_fence_uniqueness 1 (frameTick 0 (startState 1))
    (Reach.tick 0 Reach.start (by decide) rfl
      (fun f hf => Option.noConfusion hf))

end Iridium
